import Mathlib

/-!
Verification of the simulated homomorphic-encryption core of the HEM
repository (`server/he_engine.py`).

Python floats are modelled by `PyF`: an exact rational for finite values,
plus the non-finite values NaN, +Infinity and -Infinity.  Finite float
arithmetic is modelled exactly (no rounding or magnitude overflow), which
is what the spec's "within 1e-6" tolerances allow; NaN/Infinity
propagation follows IEEE rules so that the finiteness checks of the code
(`math.isfinite`) and the spec's finiteness invariants are expressible.

Sources of nondeterminism in the code are passed as explicit parameters:
`secrets.randbelow(100)` in `encrypt` becomes the argument `draw` (noise
is `draw / 10`), and `time.time()` becomes the argument `now`.

Serialized tokens are modelled at the JSON level: `Token.decoded j` is a
string that base64url-decodes and JSON-parses to the JSON value `j`, and
`Token.invalid` stands for any string that fails to decode or parse.
Python's `json` module accepts the tokens `NaN`, `Infinity` and
`-Infinity` by default, so `Json.num` carries a full `PyF`.  The model is
typed where Python is dynamic: fields of a token are required to have the
JSON shapes that `serialize` produces (string `key_id`, numeric array
payload, numeric `noise` / `created_at`); Python would instead store a
non-numeric payload element uncast and fail later, a corner no claim
touches.  Duplicate JSON keys are not modelled.

Each `ValueError` raise site of the code is mapped to the spec's error
taxonomy: "Keys not generated" / "Secret key unavailable" →
`KeysNotInitialized`, "ciphertext key does not match active key" →
`KeyMismatch`, "ciphertext payload cannot be empty" → `InvalidCiphertext`,
"payload sizes must match" / "Weights and ciphertext dimensions do not
match" → `DimensionMismatch`, "values cannot be empty" / "values must be
finite" / "coefficients cannot be empty" → `InvalidInput`, and failures
of `Ciphertext.deserialize` → `MalformedToken`.  Fallible operations
return `Except HEError`; an `Except.error` result carries no ciphertext,
which is how "no partial result on failure" is expressed.
-/

namespace HEM

/-- Model of a Python float: an exact rational for a finite value, or one
of the non-finite values NaN, +Infinity, -Infinity. -/
inductive PyF where
  | fin (q : ℚ)
  | nan
  | inf
  | ninf
deriving DecidableEq

/-- `math.isfinite`. -/
def PyF.isfinite : PyF → Bool
  | .fin _ => true
  | _ => false

/-- Float addition (IEEE special-value rules; finite arithmetic exact). -/
def PyF.add : PyF → PyF → PyF
  | .nan, _ => .nan
  | _, .nan => .nan
  | .inf, .ninf => .nan
  | .ninf, .inf => .nan
  | .inf, _ => .inf
  | _, .inf => .inf
  | .ninf, _ => .ninf
  | _, .ninf => .ninf
  | .fin a, .fin b => .fin (a + b)

/-- Float subtraction. -/
def PyF.sub : PyF → PyF → PyF
  | .nan, _ => .nan
  | _, .nan => .nan
  | .inf, .inf => .nan
  | .ninf, .ninf => .nan
  | .inf, _ => .inf
  | .ninf, _ => .ninf
  | _, .inf => .ninf
  | _, .ninf => .inf
  | .fin a, .fin b => .fin (a - b)

/-- Float multiplication. -/
def PyF.mul : PyF → PyF → PyF
  | .nan, _ => .nan
  | _, .nan => .nan
  | .inf, .inf => .inf
  | .inf, .ninf => .ninf
  | .ninf, .inf => .ninf
  | .ninf, .ninf => .inf
  | .inf, .fin b => if b = 0 then .nan else if 0 < b then .inf else .ninf
  | .fin a, .inf => if a = 0 then .nan else if 0 < a then .inf else .ninf
  | .ninf, .fin b => if b = 0 then .nan else if 0 < b then .ninf else .inf
  | .fin a, .ninf => if a = 0 then .nan else if 0 < a then .ninf else .inf
  | .fin a, .fin b => .fin (a * b)

/-- Float division (never applied to a zero divisor by the engine). -/
def PyF.div : PyF → PyF → PyF
  | .nan, _ => .nan
  | _, .nan => .nan
  | .inf, .inf => .nan
  | .inf, .ninf => .nan
  | .ninf, .inf => .nan
  | .ninf, .ninf => .nan
  | .inf, .fin b => if 0 ≤ b then .inf else .ninf
  | .ninf, .fin b => if 0 ≤ b then .ninf else .inf
  | .fin _, .inf => .fin 0
  | .fin _, .ninf => .fin 0
  | .fin a, .fin b =>
    if b = 0 then (if a = 0 then .nan else if 0 < a then .inf else .ninf)
    else .fin (a / b)

/-- Finite and non-negative (shape of a well-formed noise scalar). -/
def PyF.isNonnegFin : PyF → Bool
  | .fin q => decide (0 ≤ q)
  | _ => false

/-- The spec's error taxonomy (section 7); each `ValueError` raise site
of the code maps onto one constructor as listed in the header comment. -/
inductive HEError where
  | KeysNotInitialized
  | KeyMismatch
  | InvalidCiphertext
  | DimensionMismatch
  | InvalidInput
  | MalformedToken
deriving DecidableEq

/-- `Ciphertext` dataclass of `server/he_engine.py`. -/
structure Ciphertext where
  key_id : String
  payload : List PyF
  noise : PyF
  created_at : PyF
deriving DecidableEq

/-- The spec's ciphertext invariant (section 3): payload non-empty, all
payload values finite, noise a finite non-negative scalar. -/
def Ciphertext.wf (c : Ciphertext) : Bool :=
  !c.payload.isEmpty && c.payload.all PyF.isfinite && c.noise.isNonnegFin

/-- JSON values, as far as the token format needs them. -/
inductive Json where
  | str (s : String)
  | num (x : PyF)
  | arr (elems : List Json)
  | obj (fields : List (String × Json))

/-- Dictionary lookup on a JSON object's field list. -/
def lookupField : List (String × Json) → String → Option Json
  | [], _ => none
  | (k, v) :: rest, key => if k = key then some v else lookupField rest key

/-- `obj[key]` on a decoded token: `none` models a `KeyError` or a
non-object document. -/
def Json.getField : Json → String → Option Json
  | .obj fields, key => lookupField fields key
  | _, _ => none

/-- A transport token: either a string decoding to a JSON value, or a
string that is not valid base64url/JSON. -/
inductive Token where
  | decoded (j : Json)
  | invalid

/-- Reading one numeric field (`float(...)` applied to a JSON number). -/
def asNum : Json → Option PyF
  | .num x => some x
  | _ => none

/-- Reading the payload array elementwise as numbers. -/
def parseNums : List Json → Option (List PyF)
  | [] => some []
  | j :: rest =>
    match asNum j, parseNums rest with
    | some x, some xs => some (x :: xs)
    | _, _ => none

/-- `Ciphertext.serialize`: the JSON blob
`be {key_id, payload, noise, created_at}` behind base64url. -/
def Ciphertext.serialize (c : Ciphertext) : Token :=
  .decoded (.obj [("key_id", .str c.key_id),
                  ("payload", .arr (c.payload.map Json.num)),
                  ("noise", .num c.noise),
                  ("created_at", .num c.created_at)])

/-- `Ciphertext.deserialize`: decode, then read the four required fields.
Any decoding or field failure is a `MalformedToken`. -/
def Ciphertext.deserialize : Token → Except HEError Ciphertext
  | .invalid => .error .MalformedToken
  | .decoded j =>
    match j.getField "key_id" with
    | some (.str kid) =>
      match j.getField "payload" with
      | some (.arr elems) =>
        match parseNums elems with
        | some payload =>
          match j.getField "noise" with
          | some nzj =>
            match asNum nzj with
            | some noise =>
              match j.getField "created_at" with
              | some caj =>
                match asNum caj with
                | some created => .ok ⟨kid, payload, noise, created⟩
                | none => .error .MalformedToken
              | none => .error .MalformedToken
            | none => .error .MalformedToken
          | none => .error .MalformedToken
        | none => .error .MalformedToken
      | none => .error .MalformedToken
      | some _ => .error .MalformedToken
    | _ => .error .MalformedToken

/-- State of a `SimulatedFHEEngine` instance: the three key slots. -/
structure SimulatedFHEEngine where
  public_key : Option String
  secret_key : Option String
  key_id : Option String
deriving DecidableEq

/-- An operand of an arithmetic operator: a `Ciphertext` object or a
serialized token (the `str | Ciphertext` union of the code). -/
inductive CtInput where
  | ct (c : Ciphertext)
  | token (t : Token)

namespace SimulatedFHEEngine

/-- `generate_keys`, with the three random draws as parameters: the state
after the call.  (Persistence into the key store is out of core scope.) -/
def generate_keys (kid pk sk : String) : SimulatedFHEEngine :=
  ⟨some pk, some sk, some kid⟩

/-- The `key_id` property: raises when `_key_id` is `None` or empty
(Python truthiness). -/
def activeKey (st : SimulatedFHEEngine) : Except HEError String :=
  match st.key_id with
  | none => .error .KeysNotInitialized
  | some k => if k = "" then .error .KeysNotInitialized else .ok k

/-- `encrypt`: reject when no public key, when `values` is empty, or when
a value is non-finite; otherwise add the noise `draw / 10`
(`secrets.randbelow(100) / 10.0`) to every element. -/
def encrypt (st : SimulatedFHEEngine) (values : List PyF) (draw : ℕ)
    (now : PyF) : Except HEError Ciphertext :=
  match st.public_key with
  | none => .error .KeysNotInitialized
  | some _ =>
    if values.isEmpty then .error .InvalidInput
    else if values.all PyF.isfinite then
      match activeKey st with
      | .error e => .error e
      | .ok kid =>
        let noise : PyF := .fin ((draw : ℚ) / 10)
        .ok ⟨kid, values.map (fun v => v.add noise), noise, now⟩
    else .error .InvalidInput

/-- `decrypt`: requires the secret key, then subtracts the stored noise
from every payload element.  (The code performs no key_id check here.) -/
def decrypt (st : SimulatedFHEEngine) (c : Ciphertext) :
    Except HEError (List PyF) :=
  match st.secret_key with
  | none => .error .KeysNotInitialized
  | some _ => .ok (c.payload.map (fun v => v.sub c.noise))

/-- `_validate_ciphertext`: active key exists, key bindings match,
payload non-empty — in that order. -/
def validate_ciphertext (st : SimulatedFHEEngine) (c : Ciphertext) :
    Except HEError Unit :=
  match st.key_id with
  | none => .error .KeysNotInitialized
  | some k =>
    if c.key_id ≠ k then .error .KeyMismatch
    else if c.payload.isEmpty then .error .InvalidCiphertext
    else .ok ()

/-- `_coerce_ciphertext`: deserialize a token operand, then validate. -/
def coerce_ciphertext (st : SimulatedFHEEngine) :
    CtInput → Except HEError Ciphertext
  | .ct c =>
    match validate_ciphertext st c with
    | .error e => .error e
    | .ok _ => .ok c
  | .token t =>
    match Ciphertext.deserialize t with
    | .error e => .error e
    | .ok c =>
      match validate_ciphertext st c with
      | .error e => .error e
      | .ok _ => .ok c

/-- `add`: elementwise sum, noise `(na + nb) / 2`. -/
def add (st : SimulatedFHEEngine) (a b : CtInput) (now : PyF) :
    Except HEError Ciphertext :=
  match coerce_ciphertext st a with
  | .error e => .error e
  | .ok ct_a =>
    match coerce_ciphertext st b with
    | .error e => .error e
    | .ok ct_b =>
      if ct_a.payload.length ≠ ct_b.payload.length then
        .error .DimensionMismatch
      else
        match activeKey st with
        | .error e => .error e
        | .ok kid =>
          .ok ⟨kid, List.zipWith PyF.add ct_a.payload ct_b.payload,
               (ct_a.noise.add ct_b.noise).div (.fin 2), now⟩

/-- `mul`: elementwise product, noise `na + nb + 1.0`. -/
def mul (st : SimulatedFHEEngine) (a b : CtInput) (now : PyF) :
    Except HEError Ciphertext :=
  match coerce_ciphertext st a with
  | .error e => .error e
  | .ok ct_a =>
    match coerce_ciphertext st b with
    | .error e => .error e
    | .ok ct_b =>
      if ct_a.payload.length ≠ ct_b.payload.length then
        .error .DimensionMismatch
      else
        match activeKey st with
        | .error e => .error e
        | .ok kid =>
          .ok ⟨kid, List.zipWith PyF.mul ct_a.payload ct_b.payload,
               (ct_a.noise.add ct_b.noise).add (.fin 1), now⟩

/-- `scalar_mul`: elementwise scale, noise `+ 0.2`. -/
def scalar_mul (st : SimulatedFHEEngine) (input : CtInput) (scalar : PyF)
    (now : PyF) : Except HEError Ciphertext :=
  match coerce_ciphertext st input with
  | .error e => .error e
  | .ok ct =>
    match activeKey st with
    | .error e => .error e
    | .ok kid =>
      .ok ⟨kid, ct.payload.map (fun v => v.mul scalar),
           ct.noise.add (.fin (1 / 5)), now⟩

/-- `np.dot` on two equal-length vectors: sum of elementwise products. -/
def dotPayload (xs ys : List PyF) : PyF :=
  (List.zipWith PyF.mul xs ys).foldl PyF.add (.fin 0)

/-- `dot`: single-element inner product, noise `na + nb + 0.5`. -/
def dot (st : SimulatedFHEEngine) (a b : CtInput) (now : PyF) :
    Except HEError Ciphertext :=
  match coerce_ciphertext st a with
  | .error e => .error e
  | .ok ct_a =>
    match coerce_ciphertext st b with
    | .error e => .error e
    | .ok ct_b =>
      if ct_a.payload.length ≠ ct_b.payload.length then
        .error .DimensionMismatch
      else
        match activeKey st with
        | .error e => .error e
        | .ok kid =>
          .ok ⟨kid, [dotPayload ct_a.payload ct_b.payload],
               (ct_a.noise.add ct_b.noise).add (.fin (1 / 2)), now⟩

/-- Horner loop of `polynomial`: `acc = 0; for c in coeffs: acc = acc*x + c`. -/
def horner (coeffs : List PyF) (x : PyF) : PyF :=
  coeffs.foldl (fun acc c => (acc.mul x).add c) (.fin 0)

/-- `polynomial`: Horner evaluation per payload element, noise `+ 0.3`;
empty coefficients rejected. -/
def polynomial (st : SimulatedFHEEngine) (input : CtInput)
    (coefficients : List PyF) (now : PyF) : Except HEError Ciphertext :=
  match coerce_ciphertext st input with
  | .error e => .error e
  | .ok ct =>
    if coefficients.isEmpty then .error .InvalidInput
    else
      match activeKey st with
      | .error e => .error e
      | .ok kid =>
        .ok ⟨kid, ct.payload.map (horner coefficients),
             ct.noise.add (.fin (3 / 10)), now⟩

/-- `mean`: single-element arithmetic mean, noise `+ 0.1`. -/
def mean (st : SimulatedFHEEngine) (input : CtInput) (now : PyF) :
    Except HEError Ciphertext :=
  match coerce_ciphertext st input with
  | .error e => .error e
  | .ok ct =>
    match activeKey st with
    | .error e => .error e
    | .ok kid =>
      .ok ⟨kid, [(ct.payload.foldl PyF.add (.fin 0)).div
                   (.fin (ct.payload.length : ℚ))],
           ct.noise.add (.fin (1 / 10)), now⟩

/-- `linear_model`: single-element `dot(payload, weights) + bias`,
noise `+ 0.4`; weight/payload dimension check. -/
def linear_model (st : SimulatedFHEEngine) (input : CtInput)
    (weights : List PyF) (bias : PyF) (now : PyF) :
    Except HEError Ciphertext :=
  match coerce_ciphertext st input with
  | .error e => .error e
  | .ok ct =>
    if weights.length ≠ ct.payload.length then .error .DimensionMismatch
    else
      match activeKey st with
      | .error e => .error e
      | .ok kid =>
        .ok ⟨kid, [(dotPayload ct.payload weights).add bias],
             ct.noise.add (.fin (2 / 5)), now⟩

end SimulatedFHEEngine

/-! ## Helper lemmas -/

instance {ε α : Type} [DecidableEq ε] [DecidableEq α] :
    DecidableEq (Except ε α) := fun a b =>
  match a, b with
  | .ok x, .ok y =>
    if h : x = y then .isTrue (by rw [h]) else .isFalse (by simp [h])
  | .error e, .error f =>
    if h : e = f then .isTrue (by rw [h]) else .isFalse (by simp [h])
  | .ok _, .error _ => .isFalse (by simp)
  | .error _, .ok _ => .isFalse (by simp)

/-- Parsing back a payload serialized elementwise as JSON numbers. -/
theorem parseNums_map_num (xs : List PyF) :
    parseNums (xs.map Json.num) = some xs := by
  induction xs with
  | nil => rfl
  | cons x xs ih => simp [parseNums, asNum, ih]

/-- Adding then subtracting the same finite noise is the identity on a
finite float. -/
theorem PyF.add_sub_cancel (x n : PyF) (hx : x.isfinite = true)
    (hn : n.isfinite = true) : (x.add n).sub n = x := by
  cases x <;> cases n <;>
    simp_all [PyF.add, PyF.sub, PyF.isfinite, add_sub_cancel_right]

/-- Validation result when no key has been generated. -/
theorem validate_none (st : SimulatedFHEEngine) (c : Ciphertext)
    (h : st.key_id = none) :
    SimulatedFHEEngine.validate_ciphertext st c = .error .KeysNotInitialized := by
  simp [SimulatedFHEEngine.validate_ciphertext, h]

/-- Validation result on a key binding mismatch. -/
theorem validate_mismatch (st : SimulatedFHEEngine) (c : Ciphertext)
    (k : String) (h : st.key_id = some k) (hne : c.key_id ≠ k) :
    SimulatedFHEEngine.validate_ciphertext st c = .error .KeyMismatch := by
  simp [SimulatedFHEEngine.validate_ciphertext, h, hne]

/-- Validation result on an empty payload (matching key). -/
theorem validate_empty (st : SimulatedFHEEngine) (c : Ciphertext)
    (k : String) (h : st.key_id = some k) (heq : c.key_id = k)
    (hp : c.payload = []) :
    SimulatedFHEEngine.validate_ciphertext st c = .error .InvalidCiphertext := by
  simp [SimulatedFHEEngine.validate_ciphertext, h, heq, hp]

/-- A ciphertext-object operand accepted by `_coerce_ciphertext` passed
`_validate_ciphertext`. -/
theorem validate_of_coerce_ok (st : SimulatedFHEEngine) (ca : Ciphertext)
    (hca : SimulatedFHEEngine.coerce_ciphertext st (.ct ca) = .ok ca) :
    SimulatedFHEEngine.validate_ciphertext st ca = .ok () := by
  cases h : SimulatedFHEEngine.validate_ciphertext st ca with
  | error e => simp [SimulatedFHEEngine.coerce_ciphertext, h] at hca
  | ok u => cases u; rfl

/-- The spec's validation-gate contract (section 4.4) for one operand
slot of an operator: no active key yields `KeysNotInitialized`, a key
binding mismatch yields `KeyMismatch`, an empty payload under a matching
key yields `InvalidCiphertext`; in each case the run returns the error
and no ciphertext. -/
def ValidatesFirst (st : SimulatedFHEEngine)
    (run : CtInput → Except HEError Ciphertext) : Prop :=
  (st.key_id = none →
    ∀ c, run (.ct c) = .error .KeysNotInitialized) ∧
  (∀ k c, st.key_id = some k → c.key_id ≠ k →
    run (.ct c) = .error .KeyMismatch) ∧
  (∀ k c, st.key_id = some k → c.key_id = k → c.payload = [] →
    run (.ct c) = .error .InvalidCiphertext)

/-- Any run that forwards validation errors of its operand satisfies the
validation-gate contract. -/
theorem validatesFirst_of_run (st : SimulatedFHEEngine)
    (run : CtInput → Except HEError Ciphertext)
    (hrun : ∀ c e, SimulatedFHEEngine.validate_ciphertext st c = .error e →
      run (.ct c) = .error e) : ValidatesFirst st run :=
  ⟨fun h c => hrun c _ (validate_none st c h),
   fun k c h hne => hrun c _ (validate_mismatch st c k h hne),
   fun k c h heq hp => hrun c _ (validate_empty st c k h heq hp)⟩

/-- Elementwise view of `zipWith`. -/
theorem zipWith_getElem? (f : PyF → PyF → PyF) (xs ys : List PyF) (i : ℕ)
    (x y : PyF) (hx : xs[i]? = some x) (hy : ys[i]? = some y) :
    (List.zipWith f xs ys)[i]? = some (f x y) := by
  rw [List.getElem?_zipWith, hx, hy]

/-- Finite floats are closed under addition. -/
theorem PyF.isfinite_add {a b : PyF} (ha : a.isfinite = true)
    (hb : b.isfinite = true) : (a.add b).isfinite = true := by
  cases a <;> cases b <;> simp_all [PyF.add, PyF.isfinite]

/-- Finite floats are closed under multiplication. -/
theorem PyF.isfinite_mul {a b : PyF} (ha : a.isfinite = true)
    (hb : b.isfinite = true) : (a.mul b).isfinite = true := by
  cases a <;> cases b <;> simp_all [PyF.mul, PyF.isfinite]

/-- `fin` values are finite. -/
theorem PyF.isfinite_fin (q : ℚ) : (PyF.fin q).isfinite = true := rfl

/-- A finite float is a `fin`. -/
theorem PyF.isfinite_fin_exists (p : PyF) (h : p.isfinite = true) :
    ∃ q, p = .fin q := by
  cases p with
  | fin q => exact ⟨q, rfl⟩
  | nan => simp [PyF.isfinite] at h
  | inf => simp [PyF.isfinite] at h
  | ninf => simp [PyF.isfinite] at h

/-- Unpacking the ciphertext invariant. -/
theorem wf_parts (c : Ciphertext) (h : c.wf = true) :
    c.payload ≠ [] ∧ c.payload.all PyF.isfinite = true ∧
      ∃ q, c.noise = PyF.fin q ∧ 0 ≤ q := by
  unfold Ciphertext.wf at h
  rw [Bool.and_eq_true, Bool.and_eq_true] at h
  obtain ⟨⟨h1, h2⟩, h3⟩ := h
  refine ⟨?_, h2, ?_⟩
  · intro hnil
    rw [hnil] at h1
    simp at h1
  · cases hn : c.noise with
    | fin q =>
      rw [hn] at h3
      simp [PyF.isNonnegFin] at h3
      exact ⟨q, rfl, h3⟩
    | nan => rw [hn] at h3; simp [PyF.isNonnegFin] at h3
    | inf => rw [hn] at h3; simp [PyF.isNonnegFin] at h3
    | ninf => rw [hn] at h3; simp [PyF.isNonnegFin] at h3

/-- Establishing the ciphertext invariant. -/
theorem wf_intro (c : Ciphertext) (h1 : c.payload ≠ [])
    (h2 : c.payload.all PyF.isfinite = true) (q : ℚ)
    (hn : c.noise = PyF.fin q) (hq : 0 ≤ q) : c.wf = true := by
  simp [Ciphertext.wf, List.isEmpty_iff, h1, h2, hn, PyF.isNonnegFin, hq]

/-- Mapping a finiteness-preserving function preserves payload
finiteness. -/
theorem all_isfinite_map (f : PyF → PyF)
    (hf : ∀ x, x.isfinite = true → (f x).isfinite = true) :
    ∀ (v : List PyF), v.all PyF.isfinite = true →
      (v.map f).all PyF.isfinite = true
  | [], _ => rfl
  | x :: xs, hv => by
    simp only [List.all_cons, Bool.and_eq_true] at hv
    simp only [List.map_cons, List.all_cons, Bool.and_eq_true]
    exact ⟨hf x hv.1, all_isfinite_map f hf xs hv.2⟩

/-- Zipping with a finiteness-preserving binary function preserves
payload finiteness. -/
theorem all_isfinite_zipWith (f : PyF → PyF → PyF)
    (hf : ∀ a b, a.isfinite = true → b.isfinite = true →
      (f a b).isfinite = true) :
    ∀ (xs ys : List PyF), xs.all PyF.isfinite = true →
      ys.all PyF.isfinite = true →
      (List.zipWith f xs ys).all PyF.isfinite = true
  | [], _, _, _ => rfl
  | _ :: _, [], _, _ => rfl
  | x :: xs, y :: ys, hx, hy => by
    simp only [List.all_cons, Bool.and_eq_true] at hx hy
    simp only [List.zipWith_cons_cons, List.all_cons, Bool.and_eq_true]
    exact ⟨hf x y hx.1 hy.1, all_isfinite_zipWith f hf xs ys hx.2 hy.2⟩

/-- A running `PyF.add` fold over finite values stays finite. -/
theorem isfinite_foldl_add : ∀ (l : List PyF) (acc : PyF),
    l.all PyF.isfinite = true → acc.isfinite = true →
    (l.foldl PyF.add acc).isfinite = true
  | [], _, _, ha => ha
  | x :: xs, acc, hl, ha => by
    simp only [List.all_cons, Bool.and_eq_true] at hl
    exact isfinite_foldl_add xs _ hl.2 (PyF.isfinite_add ha hl.1)

/-- The Horner fold over finite coefficients at a finite point stays
finite. -/
theorem isfinite_foldl_horner (x : PyF) (hx : x.isfinite = true) :
    ∀ (coeffs : List PyF) (acc : PyF), coeffs.all PyF.isfinite = true →
      acc.isfinite = true →
      (coeffs.foldl (fun acc c => (acc.mul x).add c) acc).isfinite = true
  | [], _, _, ha => ha
  | c :: cs, acc, hc, ha => by
    simp only [List.all_cons, Bool.and_eq_true] at hc
    exact isfinite_foldl_horner x hx cs _ hc.2
      (PyF.isfinite_add (PyF.isfinite_mul ha hx) hc.1)

/-- `np.dot` of two all-finite vectors is finite. -/
theorem isfinite_dotPayload (xs ys : List PyF)
    (hx : xs.all PyF.isfinite = true) (hy : ys.all PyF.isfinite = true) :
    (SimulatedFHEEngine.dotPayload xs ys).isfinite = true :=
  isfinite_foldl_add _ _
    (all_isfinite_zipWith PyF.mul (fun _ _ ha hb => PyF.isfinite_mul ha hb)
      xs ys hx hy) rfl

/-- `zipWith` of same-length non-empty lists is non-empty. -/
theorem zipWith_ne_nil (f : PyF → PyF → PyF) (xs ys : List PyF)
    (hx : xs ≠ []) (hlen : xs.length = ys.length) :
    List.zipWith f xs ys ≠ [] := by
  cases xs with
  | nil => exact absurd rfl hx
  | cons x xs =>
    cases ys with
    | nil => simp at hlen
    | cons y ys => simp

/-! ## Claim theorems -/

/-- C2: for every ciphertext `c`, `deserialize (serialize c)` succeeds and
returns a ciphertext equal to `c` field-for-field. -/
theorem C2_serialize_round_trip (c : Ciphertext) :
    Ciphertext.deserialize c.serialize = .ok c := by
  simp [Ciphertext.serialize, Ciphertext.deserialize, Json.getField,
        lookupField, parseNums_map_num, asNum]

/-- C1: on an engine whose keys have been generated, for every non-empty
sequence of finite values, `decrypt (encrypt v)` returns a sequence of the
same length whose i-th element equals `v[i]` within 1e-6 (encrypt adds one
noise scalar to every element; decrypt subtracts the stored noise). -/
theorem C1_encrypt_decrypt_round_trip (pk sk kid : String) (hkid : kid ≠ "")
    (v : List PyF) (hne : v ≠ []) (hfin : v.all PyF.isfinite = true)
    (draw : ℕ) (now : PyF) :
    ∃ ct dec,
      SimulatedFHEEngine.encrypt (SimulatedFHEEngine.generate_keys kid pk sk)
          v draw now = .ok ct ∧
      SimulatedFHEEngine.decrypt (SimulatedFHEEngine.generate_keys kid pk sk)
          ct = .ok dec ∧
      dec.length = v.length ∧
      ∀ i, i < v.length → ∃ qv qd : ℚ,
        v[i]? = some (.fin qv) ∧ dec[i]? = some (.fin qd) ∧
        |qd - qv| ≤ 1 / 1000000 := by
  have hempty : v.isEmpty = false := by
    cases v with
    | nil => exact absurd rfl hne
    | cons a l => rfl
  have hkey : SimulatedFHEEngine.activeKey
      (SimulatedFHEEngine.generate_keys kid pk sk) = .ok kid := by
    simp [SimulatedFHEEngine.activeKey, SimulatedFHEEngine.generate_keys, hkid]
  refine ⟨⟨kid, v.map (fun x => x.add (.fin ((draw : ℚ) / 10))),
           .fin ((draw : ℚ) / 10), now⟩,
          v.map (fun x => (x.add (.fin ((draw : ℚ) / 10))).sub
            (.fin ((draw : ℚ) / 10))), ?_, ?_, ?_, ?_⟩
  · simp [SimulatedFHEEngine.encrypt, SimulatedFHEEngine.generate_keys,
          SimulatedFHEEngine.activeKey, hempty, hfin, hkid]
  · simp [SimulatedFHEEngine.decrypt, SimulatedFHEEngine.generate_keys,
          List.map_map, Function.comp]
  · simp
  · intro i hi
    have hvi : v[i]? = some v[i] := List.getElem?_eq_getElem hi
    have hmem : v[i] ∈ v := List.getElem_mem hi
    have hfin_i : (v[i]).isfinite = true :=
      List.all_eq_true.mp hfin _ hmem
    cases hx : v[i] with
    | fin q =>
      refine ⟨q, q, by rw [hvi, hx], ?_, by simp⟩
      rw [List.getElem?_map, hvi, hx]
      simp [PyF.add, PyF.sub, add_sub_cancel_right]
    | nan => rw [hx] at hfin_i; simp [PyF.isfinite] at hfin_i
    | inf => rw [hx] at hfin_i; simp [PyF.isfinite] at hfin_i
    | ninf => rw [hx] at hfin_i; simp [PyF.isfinite] at hfin_i

/-- Witness for C1 at a concrete engine, plaintext and noise draw. -/
theorem C1_witness :
    ∃ ct dec,
      SimulatedFHEEngine.encrypt (SimulatedFHEEngine.generate_keys "k" "p" "s")
          [PyF.fin 1, PyF.fin 2] 7 (PyF.fin 0) = .ok ct ∧
      SimulatedFHEEngine.decrypt (SimulatedFHEEngine.generate_keys "k" "p" "s")
          ct = .ok dec ∧
      dec.length = [PyF.fin 1, PyF.fin 2].length ∧
      ∀ i, i < [PyF.fin 1, PyF.fin 2].length → ∃ qv qd : ℚ,
        [PyF.fin 1, PyF.fin 2][i]? = some (.fin qv) ∧
        dec[i]? = some (.fin qd) ∧ |qd - qv| ≤ 1 / 1000000 :=
  C1_encrypt_decrypt_round_trip "p" "s" "k" (by decide)
    [PyF.fin 1, PyF.fin 2] (by decide) (by decide) 7 (PyF.fin 0)

/-- C3: every arithmetic operator (add, mul, scalar_mul, dot, polynomial,
mean, linear_model) validates each ciphertext operand before computing
any payload: `KeysNotInitialized` when no key has been generated,
`KeyMismatch` whenever the operand's key binding differs from the active
one (so ciphertexts from two distinct key generations are always
rejected), `InvalidCiphertext` when the operand's payload is empty; the
`Except.error` result carries no ciphertext, so no partial result is
returned on failure.  The last three conjuncts cover the second operand
of the binary operators, given any accepted first operand `ca`. -/
theorem C3_validation_gate (st : SimulatedFHEEngine) (b : CtInput)
    (s bias now : PyF) (coeffs weights : List PyF) (ca : Ciphertext) :
    ValidatesFirst st (fun a => SimulatedFHEEngine.add st a b now) ∧
    ValidatesFirst st (fun a => SimulatedFHEEngine.mul st a b now) ∧
    ValidatesFirst st (fun a => SimulatedFHEEngine.scalar_mul st a s now) ∧
    ValidatesFirst st (fun a => SimulatedFHEEngine.dot st a b now) ∧
    ValidatesFirst st
      (fun a => SimulatedFHEEngine.polynomial st a coeffs now) ∧
    ValidatesFirst st (fun a => SimulatedFHEEngine.mean st a now) ∧
    ValidatesFirst st
      (fun a => SimulatedFHEEngine.linear_model st a weights bias now) ∧
    (SimulatedFHEEngine.coerce_ciphertext st (.ct ca) = .ok ca →
      ValidatesFirst st
        (fun bIn => SimulatedFHEEngine.add st (.ct ca) bIn now)) ∧
    (SimulatedFHEEngine.coerce_ciphertext st (.ct ca) = .ok ca →
      ValidatesFirst st
        (fun bIn => SimulatedFHEEngine.mul st (.ct ca) bIn now)) ∧
    (SimulatedFHEEngine.coerce_ciphertext st (.ct ca) = .ok ca →
      ValidatesFirst st
        (fun bIn => SimulatedFHEEngine.dot st (.ct ca) bIn now)) := by
  refine ⟨?_, ?_, ?_, ?_, ?_, ?_, ?_,
          fun hca => ?_, fun hca => ?_, fun hca => ?_⟩ <;>
    refine validatesFirst_of_run st _ (fun c e hv => ?_) <;>
    first
      | simp [SimulatedFHEEngine.add, SimulatedFHEEngine.mul,
              SimulatedFHEEngine.scalar_mul, SimulatedFHEEngine.dot,
              SimulatedFHEEngine.polynomial, SimulatedFHEEngine.mean,
              SimulatedFHEEngine.linear_model,
              SimulatedFHEEngine.coerce_ciphertext,
              validate_of_coerce_ok st ca hca, hv]
      | simp [SimulatedFHEEngine.add, SimulatedFHEEngine.mul,
              SimulatedFHEEngine.scalar_mul, SimulatedFHEEngine.dot,
              SimulatedFHEEngine.polynomial, SimulatedFHEEngine.mean,
              SimulatedFHEEngine.linear_model,
              SimulatedFHEEngine.coerce_ciphertext, hv]

/-- Witness for C3: the `KeysNotInitialized` branch on an engine with no
keys, the `KeyMismatch` and `InvalidCiphertext` branches on a keyed
engine, and the second-operand contracts with their accepted-first-
operand hypotheses discharged. -/
theorem C3_witness :
    SimulatedFHEEngine.add (⟨none, none, none⟩ : SimulatedFHEEngine)
      (.ct ⟨"k", [.fin 1], .fin 0, .fin 0⟩)
      (.ct ⟨"k", [.fin 1], .fin 0, .fin 0⟩) (.fin 0)
      = .error .KeysNotInitialized ∧
    SimulatedFHEEngine.add (SimulatedFHEEngine.generate_keys "k" "p" "s")
      (.ct ⟨"other", [.fin 1], .fin 0, .fin 0⟩)
      (.ct ⟨"k", [.fin 1], .fin 0, .fin 0⟩) (.fin 0)
      = .error .KeyMismatch ∧
    SimulatedFHEEngine.add (SimulatedFHEEngine.generate_keys "k" "p" "s")
      (.ct ⟨"k", [], .fin 0, .fin 0⟩)
      (.ct ⟨"k", [.fin 1], .fin 0, .fin 0⟩) (.fin 0)
      = .error .InvalidCiphertext ∧
    ValidatesFirst (SimulatedFHEEngine.generate_keys "k" "p" "s")
      (fun bIn => SimulatedFHEEngine.add
        (SimulatedFHEEngine.generate_keys "k" "p" "s")
        (.ct ⟨"k", [.fin 1], .fin 0, .fin 0⟩) bIn (.fin 0)) ∧
    ValidatesFirst (SimulatedFHEEngine.generate_keys "k" "p" "s")
      (fun bIn => SimulatedFHEEngine.mul
        (SimulatedFHEEngine.generate_keys "k" "p" "s")
        (.ct ⟨"k", [.fin 1], .fin 0, .fin 0⟩) bIn (.fin 0)) ∧
    ValidatesFirst (SimulatedFHEEngine.generate_keys "k" "p" "s")
      (fun bIn => SimulatedFHEEngine.dot
        (SimulatedFHEEngine.generate_keys "k" "p" "s")
        (.ct ⟨"k", [.fin 1], .fin 0, .fin 0⟩) bIn (.fin 0)) := by
  have h0 := C3_validation_gate (⟨none, none, none⟩ : SimulatedFHEEngine)
    (.ct ⟨"k", [.fin 1], .fin 0, .fin 0⟩) (.fin 2) (.fin 0) (.fin 0)
    [.fin 1] [.fin 1] ⟨"k", [.fin 1], .fin 0, .fin 0⟩
  have hK := C3_validation_gate (SimulatedFHEEngine.generate_keys "k" "p" "s")
    (.ct ⟨"k", [.fin 1], .fin 0, .fin 0⟩) (.fin 2) (.fin 0) (.fin 0)
    [.fin 1] [.fin 1] ⟨"k", [.fin 1], .fin 0, .fin 0⟩
  exact ⟨h0.1.1 rfl ⟨"k", [.fin 1], .fin 0, .fin 0⟩,
         hK.1.2.1 "k" ⟨"other", [.fin 1], .fin 0, .fin 0⟩ rfl (by decide),
         hK.1.2.2 "k" ⟨"k", [], .fin 0, .fin 0⟩ rfl rfl rfl,
         hK.2.2.2.2.2.2.2.1 rfl,
         hK.2.2.2.2.2.2.2.2.1 rfl,
         hK.2.2.2.2.2.2.2.2.2 rfl⟩

/-- C4: for valid same-length operands with finite noises `na`, `nb`, the
sum ciphertext has noise exactly `(na + nb) / 2` and the elementwise-sum
payload, and the product ciphertext has noise exactly `na + nb + 1.0` and
the elementwise-product payload; the noise equalities are exact rational
equalities, not approximations. -/
theorem C4_noise_algebra (pk sk kid : String) (hkid : kid ≠ "")
    (a b : Ciphertext) (na nb : ℚ) (now : PyF)
    (hka : a.key_id = kid) (hkb : b.key_id = kid)
    (hpa : a.payload ≠ []) (hpb : b.payload ≠ [])
    (hna : a.noise = .fin na) (hnb : b.noise = .fin nb)
    (hlen : a.payload.length = b.payload.length) :
    (∃ ct, SimulatedFHEEngine.add (SimulatedFHEEngine.generate_keys kid pk sk)
        (.ct a) (.ct b) now = .ok ct ∧
      ct.noise = PyF.fin ((na + nb) / 2) ∧
      ct.payload = List.zipWith PyF.add a.payload b.payload ∧
      ∀ (i : ℕ) (qa qb : ℚ), a.payload[i]? = some (PyF.fin qa) →
        b.payload[i]? = some (PyF.fin qb) →
        ct.payload[i]? = some (PyF.fin (qa + qb))) ∧
    (∃ ct, SimulatedFHEEngine.mul (SimulatedFHEEngine.generate_keys kid pk sk)
        (.ct a) (.ct b) now = .ok ct ∧
      ct.noise = PyF.fin (na + nb + 1) ∧
      ct.payload = List.zipWith PyF.mul a.payload b.payload ∧
      ∀ (i : ℕ) (qa qb : ℚ), a.payload[i]? = some (PyF.fin qa) →
        b.payload[i]? = some (PyF.fin qb) →
        ct.payload[i]? = some (PyF.fin (qa * qb))) := by
  have hcoA : SimulatedFHEEngine.coerce_ciphertext
      (SimulatedFHEEngine.generate_keys kid pk sk) (.ct a) = .ok a := by
    simp [SimulatedFHEEngine.coerce_ciphertext,
          SimulatedFHEEngine.validate_ciphertext,
          SimulatedFHEEngine.generate_keys, hka, List.isEmpty_iff, hpa]
  have hcoB : SimulatedFHEEngine.coerce_ciphertext
      (SimulatedFHEEngine.generate_keys kid pk sk) (.ct b) = .ok b := by
    simp [SimulatedFHEEngine.coerce_ciphertext,
          SimulatedFHEEngine.validate_ciphertext,
          SimulatedFHEEngine.generate_keys, hkb, List.isEmpty_iff, hpb]
  have hkey : SimulatedFHEEngine.activeKey
      (SimulatedFHEEngine.generate_keys kid pk sk) = .ok kid := by
    simp [SimulatedFHEEngine.activeKey, SimulatedFHEEngine.generate_keys, hkid]
  constructor
  · refine ⟨⟨kid, List.zipWith PyF.add a.payload b.payload,
             .fin ((na + nb) / 2), now⟩, ?_, rfl, rfl, ?_⟩
    · simp [SimulatedFHEEngine.add, hcoA, hcoB, hlen, hkey,
            hna, hnb, PyF.add, PyF.div]
    · intro i qa qb hqa hqb
      have h := zipWith_getElem? PyF.add a.payload b.payload i _ _ hqa hqb
      simpa [PyF.add] using h
  · refine ⟨⟨kid, List.zipWith PyF.mul a.payload b.payload,
             .fin (na + nb + 1), now⟩, ?_, rfl, rfl, ?_⟩
    · simp [SimulatedFHEEngine.mul, hcoA, hcoB, hlen, hkey,
            hna, hnb, PyF.add, PyF.mul]
    · intro i qa qb hqa hqb
      have h := zipWith_getElem? PyF.mul a.payload b.payload i _ _ hqa hqb
      simpa [PyF.mul] using h

/-- Witness for C4 at concrete operands and noises. -/
theorem C4_witness :
    (∃ ct, SimulatedFHEEngine.add (SimulatedFHEEngine.generate_keys "k" "p" "s")
        (.ct ⟨"k", [.fin 1, .fin 2], .fin 1, .fin 0⟩)
        (.ct ⟨"k", [.fin 3, .fin 4], .fin 2, .fin 0⟩) (.fin 0) = .ok ct ∧
      ct.noise = PyF.fin ((1 + 2) / 2) ∧
      ct.payload = List.zipWith PyF.add [.fin 1, .fin 2] [.fin 3, .fin 4] ∧
      ∀ (i : ℕ) (qa qb : ℚ),
        (([.fin 1, .fin 2] : List PyF))[i]? = some (PyF.fin qa) →
        (([.fin 3, .fin 4] : List PyF))[i]? = some (PyF.fin qb) →
        ct.payload[i]? = some (PyF.fin (qa + qb))) ∧
    (∃ ct, SimulatedFHEEngine.mul (SimulatedFHEEngine.generate_keys "k" "p" "s")
        (.ct ⟨"k", [.fin 1, .fin 2], .fin 1, .fin 0⟩)
        (.ct ⟨"k", [.fin 3, .fin 4], .fin 2, .fin 0⟩) (.fin 0) = .ok ct ∧
      ct.noise = PyF.fin (1 + 2 + 1) ∧
      ct.payload = List.zipWith PyF.mul [.fin 1, .fin 2] [.fin 3, .fin 4] ∧
      ∀ (i : ℕ) (qa qb : ℚ),
        (([.fin 1, .fin 2] : List PyF))[i]? = some (PyF.fin qa) →
        (([.fin 3, .fin 4] : List PyF))[i]? = some (PyF.fin qb) →
        ct.payload[i]? = some (PyF.fin (qa * qb))) :=
  C4_noise_algebra "p" "s" "k" (by decide)
    ⟨"k", [.fin 1, .fin 2], .fin 1, .fin 0⟩
    ⟨"k", [.fin 3, .fin 4], .fin 2, .fin 0⟩ 1 2 (.fin 0)
    rfl rfl (by decide) (by decide) rfl rfl rfl

/-- C5: for valid operands whose payload lengths differ, `add`, `mul` and
`dot` all fail with `DimensionMismatch` and return no ciphertext. -/
theorem C5_dimension_guard (pk sk kid : String)
    (a b : Ciphertext) (now : PyF)
    (hka : a.key_id = kid) (hkb : b.key_id = kid)
    (hpa : a.payload ≠ []) (hpb : b.payload ≠ [])
    (hlen : a.payload.length ≠ b.payload.length) :
    SimulatedFHEEngine.add (SimulatedFHEEngine.generate_keys kid pk sk)
      (.ct a) (.ct b) now = .error .DimensionMismatch ∧
    SimulatedFHEEngine.mul (SimulatedFHEEngine.generate_keys kid pk sk)
      (.ct a) (.ct b) now = .error .DimensionMismatch ∧
    SimulatedFHEEngine.dot (SimulatedFHEEngine.generate_keys kid pk sk)
      (.ct a) (.ct b) now = .error .DimensionMismatch := by
  have hcoA : SimulatedFHEEngine.coerce_ciphertext
      (SimulatedFHEEngine.generate_keys kid pk sk) (.ct a) = .ok a := by
    simp [SimulatedFHEEngine.coerce_ciphertext,
          SimulatedFHEEngine.validate_ciphertext,
          SimulatedFHEEngine.generate_keys, hka, List.isEmpty_iff, hpa]
  have hcoB : SimulatedFHEEngine.coerce_ciphertext
      (SimulatedFHEEngine.generate_keys kid pk sk) (.ct b) = .ok b := by
    simp [SimulatedFHEEngine.coerce_ciphertext,
          SimulatedFHEEngine.validate_ciphertext,
          SimulatedFHEEngine.generate_keys, hkb, List.isEmpty_iff, hpb]
  refine ⟨?_, ?_, ?_⟩ <;>
    simp [SimulatedFHEEngine.add, SimulatedFHEEngine.mul,
          SimulatedFHEEngine.dot, hcoA, hcoB, hlen]

/-- Witness for C5 at concrete operands of lengths 2 and 3. -/
theorem C5_witness :
    SimulatedFHEEngine.add (SimulatedFHEEngine.generate_keys "k" "p" "s")
      (.ct ⟨"k", [.fin 1, .fin 2], .fin 0, .fin 0⟩)
      (.ct ⟨"k", [.fin 3, .fin 4, .fin 5], .fin 0, .fin 0⟩) (.fin 0)
      = .error .DimensionMismatch ∧
    SimulatedFHEEngine.mul (SimulatedFHEEngine.generate_keys "k" "p" "s")
      (.ct ⟨"k", [.fin 1, .fin 2], .fin 0, .fin 0⟩)
      (.ct ⟨"k", [.fin 3, .fin 4, .fin 5], .fin 0, .fin 0⟩) (.fin 0)
      = .error .DimensionMismatch ∧
    SimulatedFHEEngine.dot (SimulatedFHEEngine.generate_keys "k" "p" "s")
      (.ct ⟨"k", [.fin 1, .fin 2], .fin 0, .fin 0⟩)
      (.ct ⟨"k", [.fin 3, .fin 4, .fin 5], .fin 0, .fin 0⟩) (.fin 0)
      = .error .DimensionMismatch :=
  C5_dimension_guard "p" "s" "k"
    ⟨"k", [.fin 1, .fin 2], .fin 0, .fin 0⟩
    ⟨"k", [.fin 3, .fin 4, .fin 5], .fin 0, .fin 0⟩ (.fin 0)
    rfl rfl (by decide) (by decide) (by decide)

/-- C6 counterexample: on an engine with active key "k" and a secret key
held, decrypting a ciphertext bound to key "other" succeeds (the stored
noise is subtracted) instead of failing with KeyMismatch — `decrypt`
performs no key_id validation. -/
theorem C6_counterexample :
    SimulatedFHEEngine.decrypt (SimulatedFHEEngine.generate_keys "k" "p" "s")
      ⟨"other", [.fin 3], .fin 1, .fin 0⟩ = .ok [.fin 2] ∧
    "other" ≠ "k" := by
  constructor
  · show Except.ok [PyF.fin (3 - 1)] = Except.ok [PyF.fin 2]
    norm_num
  · decide

/-- C6 amended: `decrypt` fails with `KeysNotInitialized` whenever no
secret material is held; whenever a secret key is held it subtracts the
stored noise from every payload element without validating the
ciphertext's key binding, so a mismatched key_id is not rejected. -/
theorem C6_decrypt_behavior (st : SimulatedFHEEngine) (c : Ciphertext) :
    (st.secret_key = none →
      SimulatedFHEEngine.decrypt st c = .error .KeysNotInitialized) ∧
    (∀ sk, st.secret_key = some sk →
      SimulatedFHEEngine.decrypt st c
        = .ok (c.payload.map (fun v => v.sub c.noise))) := by
  constructor
  · intro h
    simp [SimulatedFHEEngine.decrypt, h]
  · intro sk h
    simp [SimulatedFHEEngine.decrypt, h]

/-- Witness for C6 on a fresh engine (no keys) and a keyed engine with a
foreign ciphertext. -/
theorem C6_witness :
    SimulatedFHEEngine.decrypt ⟨none, none, none⟩
      ⟨"k", [.fin 1], .fin 0, .fin 0⟩ = .error .KeysNotInitialized ∧
    SimulatedFHEEngine.decrypt (SimulatedFHEEngine.generate_keys "k" "p" "s")
      ⟨"other", [.fin 1], .fin 0, .fin 0⟩
      = .ok ([PyF.fin 1].map (fun v => v.sub (PyF.fin 0))) :=
  ⟨(C6_decrypt_behavior ⟨none, none, none⟩
      ⟨"k", [.fin 1], .fin 0, .fin 0⟩).1 rfl,
   (C6_decrypt_behavior (SimulatedFHEEngine.generate_keys "k" "p" "s")
      ⟨"other", [.fin 1], .fin 0, .fin 0⟩).2 "s" rfl⟩

/-- A token missing any of the four required fields fails to
deserialize with `MalformedToken`. -/
theorem deserialize_missing_field (j : Json)
    (h : Json.getField j "key_id" = none ∨ Json.getField j "payload" = none ∨
         Json.getField j "noise" = none ∨
         Json.getField j "created_at" = none) :
    Ciphertext.deserialize (.decoded j) = .error .MalformedToken := by
  unfold Ciphertext.deserialize
  repeat' split
  all_goals first
    | rfl
    | (rcases h with h | h | h | h <;> simp_all)

/-- C7 counterexample: a structurally complete token with NaN in both the
payload and the noise field deserializes successfully instead of failing
with MalformedToken (`json.loads` accepts NaN/Infinity by default and no
finiteness check is performed). -/
theorem C7_counterexample :
    Ciphertext.deserialize (.decoded (.obj
      [("key_id", .str "k"),
       ("payload", .arr [.num (.fin 1), .num .nan]),
       ("noise", .num .nan),
       ("created_at", .num (.fin 0))]))
      = .ok ⟨"k", [.fin 1, .nan], .nan, .fin 0⟩ := rfl

/-- C7 amended: `deserialize` fails with `MalformedToken` when the token
is not a valid encoding or is missing a required field, but it accepts
non-finite numeric fields: a well-shaped token deserializes successfully
for every noise value, NaN included. -/
theorem C7_deserialize_malformed (j : Json) :
    (Ciphertext.deserialize .invalid = .error .MalformedToken) ∧
    ((Json.getField j "key_id" = none ∨ Json.getField j "payload" = none ∨
      Json.getField j "noise" = none ∨ Json.getField j "created_at" = none) →
      Ciphertext.deserialize (.decoded j) = .error .MalformedToken) ∧
    (∀ (kid : String) (payload : List PyF) (nz ca : PyF),
      Ciphertext.deserialize (.decoded (.obj
        [("key_id", .str kid), ("payload", .arr (payload.map Json.num)),
         ("noise", .num nz), ("created_at", .num ca)]))
        = .ok ⟨kid, payload, nz, ca⟩) :=
  ⟨rfl, deserialize_missing_field j, fun kid payload nz ca => by
    simp [Ciphertext.deserialize, Json.getField, lookupField,
          parseNums_map_num, asNum]⟩

/-- Witness for C7 on a token missing its key_id field. -/
theorem C7_witness :
    Ciphertext.deserialize (.decoded (.obj [("noise", .num (.fin 0))]))
      = .error .MalformedToken :=
  (C7_deserialize_malformed (.obj [("noise", .num (.fin 0))])).2.1
    (Or.inl rfl)

/-- C9 counterexample: with noise draw 10 for both encryptions (noise
1.0 each), add-then-decrypt of encryptions of [1,2,3] and [4,5,6] yields
[6,8,10], not [5,7,9]: each sum payload element carries n1+n2 = 2.0 of
noise but only the averaged (n1+n2)/2 = 1.0 is subtracted once.  (The
repository's own test_add_operation asserts this offset behavior.) -/
theorem C9_counterexample :
    SimulatedFHEEngine.encrypt (SimulatedFHEEngine.generate_keys "k" "p" "s")
      [.fin 1, .fin 2, .fin 3] 10 (.fin 0)
      = .ok ⟨"k", [.fin 2, .fin 3, .fin 4], .fin 1, .fin 0⟩ ∧
    SimulatedFHEEngine.encrypt (SimulatedFHEEngine.generate_keys "k" "p" "s")
      [.fin 4, .fin 5, .fin 6] 10 (.fin 0)
      = .ok ⟨"k", [.fin 5, .fin 6, .fin 7], .fin 1, .fin 0⟩ ∧
    SimulatedFHEEngine.add (SimulatedFHEEngine.generate_keys "k" "p" "s")
      (.ct ⟨"k", [.fin 2, .fin 3, .fin 4], .fin 1, .fin 0⟩)
      (.ct ⟨"k", [.fin 5, .fin 6, .fin 7], .fin 1, .fin 0⟩) (.fin 0)
      = .ok ⟨"k", [.fin 7, .fin 9, .fin 11], .fin 1, .fin 0⟩ ∧
    SimulatedFHEEngine.decrypt (SimulatedFHEEngine.generate_keys "k" "p" "s")
      ⟨"k", [.fin 7, .fin 9, .fin 11], .fin 1, .fin 0⟩
      = .ok [.fin 6, .fin 8, .fin 10] ∧
    ([PyF.fin 6, PyF.fin 8, PyF.fin 10]
      ≠ [PyF.fin 5, PyF.fin 7, PyF.fin 9]) := by
  refine ⟨?_, ?_, ?_, ?_, by norm_num⟩ <;>
    norm_num [SimulatedFHEEngine.encrypt, SimulatedFHEEngine.add,
      SimulatedFHEEngine.decrypt, SimulatedFHEEngine.coerce_ciphertext,
      SimulatedFHEEngine.validate_ciphertext,
      SimulatedFHEEngine.generate_keys, SimulatedFHEEngine.activeKey,
      PyF.add, PyF.sub, PyF.div] <;> rfl

/-- C9 amended: encrypting [1,2,3] and [4,5,6] under the same key with
noise draws d1, d2, adding and decrypting yields [5,7,9] shifted
elementwise by (d1/10 + d2/10)/2 — the averaged noise does not cancel;
the result is exactly [5,7,9] precisely when both draws are zero. -/
theorem C9_add_then_decrypt (pk sk kid : String) (hkid : kid ≠ "")
    (d1 d2 : ℕ) (now : PyF) :
    ∃ c1 c2 cs,
      SimulatedFHEEngine.encrypt (SimulatedFHEEngine.generate_keys kid pk sk)
        [.fin 1, .fin 2, .fin 3] d1 now = .ok c1 ∧
      SimulatedFHEEngine.encrypt (SimulatedFHEEngine.generate_keys kid pk sk)
        [.fin 4, .fin 5, .fin 6] d2 now = .ok c2 ∧
      SimulatedFHEEngine.add (SimulatedFHEEngine.generate_keys kid pk sk)
        (.ct c1) (.ct c2) now = .ok cs ∧
      SimulatedFHEEngine.decrypt (SimulatedFHEEngine.generate_keys kid pk sk)
        cs = .ok
          [.fin (5 + ((d1 : ℚ) / 10 + (d2 : ℚ) / 10) / 2),
           .fin (7 + ((d1 : ℚ) / 10 + (d2 : ℚ) / 10) / 2),
           .fin (9 + ((d1 : ℚ) / 10 + (d2 : ℚ) / 10) / 2)] := by
  have hkey : SimulatedFHEEngine.activeKey
      (SimulatedFHEEngine.generate_keys kid pk sk) = .ok kid := by
    simp [SimulatedFHEEngine.activeKey, SimulatedFHEEngine.generate_keys, hkid]
  refine ⟨⟨kid, [.fin (1 + (d1 : ℚ) / 10), .fin (2 + (d1 : ℚ) / 10),
                 .fin (3 + (d1 : ℚ) / 10)], .fin ((d1 : ℚ) / 10), now⟩,
          ⟨kid, [.fin (4 + (d2 : ℚ) / 10), .fin (5 + (d2 : ℚ) / 10),
                 .fin (6 + (d2 : ℚ) / 10)], .fin ((d2 : ℚ) / 10), now⟩,
          ⟨kid, [.fin (1 + (d1 : ℚ) / 10 + (4 + (d2 : ℚ) / 10)),
                 .fin (2 + (d1 : ℚ) / 10 + (5 + (d2 : ℚ) / 10)),
                 .fin (3 + (d1 : ℚ) / 10 + (6 + (d2 : ℚ) / 10))],
           .fin (((d1 : ℚ) / 10 + (d2 : ℚ) / 10) / 2), now⟩,
          ?_, ?_, ?_, ?_⟩
  · simp [SimulatedFHEEngine.encrypt, SimulatedFHEEngine.generate_keys,
          SimulatedFHEEngine.activeKey, hkid, PyF.add, PyF.isfinite]
  · simp [SimulatedFHEEngine.encrypt, SimulatedFHEEngine.generate_keys,
          SimulatedFHEEngine.activeKey, hkid, PyF.add, PyF.isfinite]
  · simp [SimulatedFHEEngine.add, SimulatedFHEEngine.coerce_ciphertext,
          SimulatedFHEEngine.validate_ciphertext,
          SimulatedFHEEngine.generate_keys, SimulatedFHEEngine.activeKey,
          hkid, PyF.add, PyF.div]
  · simp [SimulatedFHEEngine.decrypt, SimulatedFHEEngine.generate_keys,
          PyF.sub]
    exact ⟨by ring, by ring, by ring⟩

/-- Witness for C9's amended statement at zero noise draws: the result is
exactly [5,7,9]. -/
theorem C9_witness :
    ∃ c1 c2 cs,
      SimulatedFHEEngine.encrypt (SimulatedFHEEngine.generate_keys "k" "p" "s")
        [.fin 1, .fin 2, .fin 3] 0 (.fin 0) = .ok c1 ∧
      SimulatedFHEEngine.encrypt (SimulatedFHEEngine.generate_keys "k" "p" "s")
        [.fin 4, .fin 5, .fin 6] 0 (.fin 0) = .ok c2 ∧
      SimulatedFHEEngine.add (SimulatedFHEEngine.generate_keys "k" "p" "s")
        (.ct c1) (.ct c2) (.fin 0) = .ok cs ∧
      SimulatedFHEEngine.decrypt (SimulatedFHEEngine.generate_keys "k" "p" "s")
        cs = .ok
          [.fin (5 + (((0 : ℕ) : ℚ) / 10 + ((0 : ℕ) : ℚ) / 10) / 2),
           .fin (7 + (((0 : ℕ) : ℚ) / 10 + ((0 : ℕ) : ℚ) / 10) / 2),
           .fin (9 + (((0 : ℕ) : ℚ) / 10 + ((0 : ℕ) : ℚ) / 10) / 2)] :=
  C9_add_then_decrypt "p" "s" "k" (by decide) 0 0 (.fin 0)

/-- C10: for a valid ciphertext operand and non-empty coefficients,
`polynomial` returns a ciphertext of the same payload length whose i-th
element is the Horner evaluation (acc = 0; for each c in coeffs in
order: acc = acc*x + c) at the i-th payload element, with noise
`a.noise + 0.3` exactly; empty coefficients fail with `InvalidInput`. -/
theorem C10_polynomial_horner (pk sk kid : String) (hkid : kid ≠ "")
    (a : Ciphertext) (hka : a.key_id = kid) (hpa : a.payload ≠ [])
    (n : ℚ) (hn : a.noise = .fin n) (coeffs : List PyF) (now : PyF) :
    (coeffs ≠ [] → ∃ ct,
      SimulatedFHEEngine.polynomial (SimulatedFHEEngine.generate_keys kid pk sk)
        (.ct a) coeffs now = .ok ct ∧
      ct.payload = a.payload.map (SimulatedFHEEngine.horner coeffs) ∧
      ct.payload.length = a.payload.length ∧
      (∀ (i : ℕ) (x : PyF), a.payload[i]? = some x →
        ct.payload[i]? = some (SimulatedFHEEngine.horner coeffs x)) ∧
      ct.noise = PyF.fin (n + 3 / 10)) ∧
    (coeffs = [] →
      SimulatedFHEEngine.polynomial (SimulatedFHEEngine.generate_keys kid pk sk)
        (.ct a) coeffs now = .error .InvalidInput) := by
  have hcoA : SimulatedFHEEngine.coerce_ciphertext
      (SimulatedFHEEngine.generate_keys kid pk sk) (.ct a) = .ok a := by
    simp [SimulatedFHEEngine.coerce_ciphertext,
          SimulatedFHEEngine.validate_ciphertext,
          SimulatedFHEEngine.generate_keys, hka, List.isEmpty_iff, hpa]
  have hkey : SimulatedFHEEngine.activeKey
      (SimulatedFHEEngine.generate_keys kid pk sk) = .ok kid := by
    simp [SimulatedFHEEngine.activeKey, SimulatedFHEEngine.generate_keys, hkid]
  constructor
  · intro hcne
    refine ⟨⟨kid, a.payload.map (SimulatedFHEEngine.horner coeffs),
             .fin (n + 3 / 10), now⟩, ?_, rfl, by simp, ?_, rfl⟩
    · simp [SimulatedFHEEngine.polynomial, hcoA, hkey, List.isEmpty_iff,
            hcne, hn, PyF.add]
    · intro i x hx
      simp [List.getElem?_map, hx]
  · intro hce
    simp [SimulatedFHEEngine.polynomial, hcoA, hce]

/-- Witness for C10 with the spec's scenario coefficients [1,0,2] on an
encryption-shaped operand, and the empty-coefficient failure. -/
theorem C10_witness :
    (∃ ct,
      SimulatedFHEEngine.polynomial (SimulatedFHEEngine.generate_keys "k" "p" "s")
        (.ct ⟨"k", [.fin 2], .fin 0, .fin 0⟩)
        [PyF.fin 1, PyF.fin 0, PyF.fin 2] (.fin 0) = .ok ct ∧
      ct.payload = ([.fin 2] : List PyF).map
        (SimulatedFHEEngine.horner [PyF.fin 1, PyF.fin 0, PyF.fin 2]) ∧
      ct.payload.length = ([.fin 2] : List PyF).length ∧
      (∀ (i : ℕ) (x : PyF), (([.fin 2] : List PyF))[i]? = some x →
        ct.payload[i]? = some
          (SimulatedFHEEngine.horner [PyF.fin 1, PyF.fin 0, PyF.fin 2] x)) ∧
      ct.noise = PyF.fin (0 + 3 / 10)) ∧
    SimulatedFHEEngine.polynomial (SimulatedFHEEngine.generate_keys "k" "p" "s")
      (.ct ⟨"k", [.fin 2], .fin 0, .fin 0⟩) ([] : List PyF) (.fin 0)
      = .error .InvalidInput :=
  ⟨(C10_polynomial_horner "p" "s" "k" (by decide)
      ⟨"k", [.fin 2], .fin 0, .fin 0⟩ rfl (by decide) 0 rfl
      [PyF.fin 1, PyF.fin 0, PyF.fin 2] (.fin 0)).1 (by decide),
   (C10_polynomial_horner "p" "s" "k" (by decide)
      ⟨"k", [.fin 2], .fin 0, .fin 0⟩ rfl (by decide) 0 rfl
      ([] : List PyF) (.fin 0)).2 rfl⟩

/-- C8 counterexample: `scalar_mul` never validates its scalar argument,
so a NaN scalar yields a produced ciphertext with a NaN payload element,
violating the payload-finiteness part of the invariant. -/
theorem C8_counterexample :
    SimulatedFHEEngine.scalar_mul (SimulatedFHEEngine.generate_keys "k" "p" "s")
      (.ct ⟨"k", [.fin 1], .fin 0, .fin 0⟩) PyF.nan (.fin 0)
      = .ok ⟨"k", [.nan], .fin (0 + 1 / 5), .fin 0⟩ ∧
    Ciphertext.wf ⟨"k", [.nan], .fin (0 + 1 / 5), .fin 0⟩ = false := by
  constructor
  · rfl
  · rfl

/-- C8 amended: every ciphertext produced by an Engine operation
satisfies the invariant (non-empty payload, all payload values finite,
finite non-negative noise) provided the scalar, coefficient, weight and
bias arguments are finite (the code never validates them, so non-finite
arguments can break the invariant) and the operand ciphertexts satisfy
the invariant and are bound to the active key. -/
theorem C8_produced_invariant (pk sk kid : String) (hkid : kid ≠ "")
    (a b : Ciphertext) (hwa : a.wf = true) (hwb : b.wf = true)
    (hka : a.key_id = kid) (hkb : b.key_id = kid)
    (hlen : a.payload.length = b.payload.length)
    (v : List PyF) (hvne : v ≠ []) (hvf : v.all PyF.isfinite = true)
    (draw : ℕ) (s : PyF) (hs : s.isfinite = true)
    (coeffs : List PyF) (hcne : coeffs ≠ [])
    (hcf : coeffs.all PyF.isfinite = true)
    (weights : List PyF) (hwtf : weights.all PyF.isfinite = true)
    (hwlen : weights.length = a.payload.length)
    (bias : PyF) (hbias : bias.isfinite = true) (now : PyF) :
    (∃ ct, SimulatedFHEEngine.encrypt (SimulatedFHEEngine.generate_keys kid pk sk)
      v draw now = .ok ct ∧ ct.wf = true) ∧
    (∃ ct, SimulatedFHEEngine.add (SimulatedFHEEngine.generate_keys kid pk sk)
      (.ct a) (.ct b) now = .ok ct ∧ ct.wf = true) ∧
    (∃ ct, SimulatedFHEEngine.mul (SimulatedFHEEngine.generate_keys kid pk sk)
      (.ct a) (.ct b) now = .ok ct ∧ ct.wf = true) ∧
    (∃ ct, SimulatedFHEEngine.scalar_mul (SimulatedFHEEngine.generate_keys kid pk sk)
      (.ct a) s now = .ok ct ∧ ct.wf = true) ∧
    (∃ ct, SimulatedFHEEngine.dot (SimulatedFHEEngine.generate_keys kid pk sk)
      (.ct a) (.ct b) now = .ok ct ∧ ct.wf = true) ∧
    (∃ ct, SimulatedFHEEngine.polynomial (SimulatedFHEEngine.generate_keys kid pk sk)
      (.ct a) coeffs now = .ok ct ∧ ct.wf = true) ∧
    (∃ ct, SimulatedFHEEngine.mean (SimulatedFHEEngine.generate_keys kid pk sk)
      (.ct a) now = .ok ct ∧ ct.wf = true) ∧
    (∃ ct, SimulatedFHEEngine.linear_model (SimulatedFHEEngine.generate_keys kid pk sk)
      (.ct a) weights bias now = .ok ct ∧ ct.wf = true) := by
  obtain ⟨hane, haf, na, hna, hna0⟩ := wf_parts a hwa
  obtain ⟨hbne, hbf, nb, hnb, hnb0⟩ := wf_parts b hwb
  have hcoA : SimulatedFHEEngine.coerce_ciphertext
      (SimulatedFHEEngine.generate_keys kid pk sk) (.ct a) = .ok a := by
    simp [SimulatedFHEEngine.coerce_ciphertext,
          SimulatedFHEEngine.validate_ciphertext,
          SimulatedFHEEngine.generate_keys, hka, List.isEmpty_iff, hane]
  have hcoB : SimulatedFHEEngine.coerce_ciphertext
      (SimulatedFHEEngine.generate_keys kid pk sk) (.ct b) = .ok b := by
    simp [SimulatedFHEEngine.coerce_ciphertext,
          SimulatedFHEEngine.validate_ciphertext,
          SimulatedFHEEngine.generate_keys, hkb, List.isEmpty_iff, hbne]
  have hkey : SimulatedFHEEngine.activeKey
      (SimulatedFHEEngine.generate_keys kid pk sk) = .ok kid := by
    simp [SimulatedFHEEngine.activeKey, SimulatedFHEEngine.generate_keys, hkid]
  have hvempty : v.isEmpty = false := by
    simp [List.isEmpty_iff, hvne]
  refine ⟨?_, ?_, ?_, ?_, ?_, ?_, ?_, ?_⟩
  · -- encrypt
    refine ⟨⟨kid, v.map (fun x => x.add (.fin ((draw : ℚ) / 10))),
             .fin ((draw : ℚ) / 10), now⟩, ?_, ?_⟩
    · simp [SimulatedFHEEngine.encrypt, SimulatedFHEEngine.generate_keys,
            SimulatedFHEEngine.activeKey, hkid, hvempty, hvf]
    · exact wf_intro _ (by simp [hvne])
        (all_isfinite_map _
          (fun x hx => PyF.isfinite_add hx (PyF.isfinite_fin _)) v hvf)
        _ rfl (by positivity)
  · -- add
    refine ⟨⟨kid, List.zipWith PyF.add a.payload b.payload,
             .fin ((na + nb) / 2), now⟩, ?_, ?_⟩
    · simp [SimulatedFHEEngine.add, hcoA, hcoB, hlen, hkey, hna, hnb,
            PyF.add, PyF.div]
    · exact wf_intro _ (zipWith_ne_nil _ _ _ hane hlen)
        (all_isfinite_zipWith PyF.add
          (fun _ _ hx hy => PyF.isfinite_add hx hy) _ _ haf hbf)
        _ rfl (by positivity)
  · -- mul
    refine ⟨⟨kid, List.zipWith PyF.mul a.payload b.payload,
             .fin (na + nb + 1), now⟩, ?_, ?_⟩
    · simp [SimulatedFHEEngine.mul, hcoA, hcoB, hlen, hkey, hna, hnb,
            PyF.add]
    · exact wf_intro _ (zipWith_ne_nil _ _ _ hane hlen)
        (all_isfinite_zipWith PyF.mul
          (fun _ _ hx hy => PyF.isfinite_mul hx hy) _ _ haf hbf)
        _ rfl (by positivity)
  · -- scalar_mul
    refine ⟨⟨kid, a.payload.map (fun x => x.mul s),
             .fin (na + 1 / 5), now⟩, ?_, ?_⟩
    · simp [SimulatedFHEEngine.scalar_mul, hcoA, hkey, hna, PyF.add]
    · exact wf_intro _ (by simp [hane])
        (all_isfinite_map _ (fun x hx => PyF.isfinite_mul hx hs) _ haf)
        _ rfl (by positivity)
  · -- dot
    refine ⟨⟨kid, [SimulatedFHEEngine.dotPayload a.payload b.payload],
             .fin (na + nb + 1 / 2), now⟩, ?_, ?_⟩
    · simp [SimulatedFHEEngine.dot, hcoA, hcoB, hlen, hkey, hna, hnb,
            PyF.add]
    · exact wf_intro _ (by simp)
        (by simp [isfinite_dotPayload a.payload b.payload haf hbf])
        _ rfl (by positivity)
  · -- polynomial
    have hcempty : coeffs.isEmpty = false := by
      simp [List.isEmpty_iff, hcne]
    refine ⟨⟨kid, a.payload.map (SimulatedFHEEngine.horner coeffs),
             .fin (na + 3 / 10), now⟩, ?_, ?_⟩
    · simp [SimulatedFHEEngine.polynomial, hcoA, hkey, hcempty, hna,
            PyF.add]
    · exact wf_intro _ (by simp [hane])
        (all_isfinite_map _
          (fun x hx => isfinite_foldl_horner x hx coeffs _ hcf
            (PyF.isfinite_fin 0)) _ haf)
        _ rfl (by positivity)
  · -- mean
    refine ⟨⟨kid, [(a.payload.foldl PyF.add (.fin 0)).div
                     (.fin (a.payload.length : ℚ))],
             .fin (na + 1 / 10), now⟩, ?_, ?_⟩
    · simp [SimulatedFHEEngine.mean, hcoA, hkey, hna, PyF.add]
    · have hlen0 : (a.payload.length : ℚ) ≠ 0 := by
        simp [a.payload.length_eq_zero]
        exact hane
      obtain ⟨q, hq⟩ := PyF.isfinite_fin_exists _
        (isfinite_foldl_add a.payload (.fin 0) haf rfl)
      exact wf_intro _ (by simp)
        (by simp [hq, PyF.div, hlen0, PyF.isfinite])
        _ rfl (by positivity)
  · -- linear_model
    obtain ⟨q, hq⟩ := PyF.isfinite_fin_exists _
      (isfinite_dotPayload a.payload weights haf hwtf)
    refine ⟨⟨kid, [(SimulatedFHEEngine.dotPayload a.payload weights).add bias],
             .fin (na + 2 / 5), now⟩, ?_, ?_⟩
    · simp [SimulatedFHEEngine.linear_model, hcoA, hkey, hwlen, hna,
            PyF.add]
    · have hfin : (SimulatedFHEEngine.dotPayload a.payload
          weights).isfinite = true := by
        rw [hq]
        rfl
      exact wf_intro _ (by simp)
        (by simp [PyF.isfinite_add hfin hbias]) _ rfl (by positivity)

/-- Witness for C8's amended statement at concrete operands and
arguments. -/
theorem C8_witness :
    (∃ ct, SimulatedFHEEngine.encrypt (SimulatedFHEEngine.generate_keys "k" "p" "s")
      [.fin 1, .fin 2] 7 (.fin 0) = .ok ct ∧ ct.wf = true) ∧
    (∃ ct, SimulatedFHEEngine.add (SimulatedFHEEngine.generate_keys "k" "p" "s")
      (.ct ⟨"k", [.fin 1, .fin 2], .fin 1, .fin 0⟩)
      (.ct ⟨"k", [.fin 3, .fin 4], .fin 2, .fin 0⟩) (.fin 0)
      = .ok ct ∧ ct.wf = true) ∧
    (∃ ct, SimulatedFHEEngine.mul (SimulatedFHEEngine.generate_keys "k" "p" "s")
      (.ct ⟨"k", [.fin 1, .fin 2], .fin 1, .fin 0⟩)
      (.ct ⟨"k", [.fin 3, .fin 4], .fin 2, .fin 0⟩) (.fin 0)
      = .ok ct ∧ ct.wf = true) ∧
    (∃ ct, SimulatedFHEEngine.scalar_mul (SimulatedFHEEngine.generate_keys "k" "p" "s")
      (.ct ⟨"k", [.fin 1, .fin 2], .fin 1, .fin 0⟩) (.fin 3) (.fin 0)
      = .ok ct ∧ ct.wf = true) ∧
    (∃ ct, SimulatedFHEEngine.dot (SimulatedFHEEngine.generate_keys "k" "p" "s")
      (.ct ⟨"k", [.fin 1, .fin 2], .fin 1, .fin 0⟩)
      (.ct ⟨"k", [.fin 3, .fin 4], .fin 2, .fin 0⟩) (.fin 0)
      = .ok ct ∧ ct.wf = true) ∧
    (∃ ct, SimulatedFHEEngine.polynomial (SimulatedFHEEngine.generate_keys "k" "p" "s")
      (.ct ⟨"k", [.fin 1, .fin 2], .fin 1, .fin 0⟩) [.fin 1, .fin 0, .fin 2]
      (.fin 0) = .ok ct ∧ ct.wf = true) ∧
    (∃ ct, SimulatedFHEEngine.mean (SimulatedFHEEngine.generate_keys "k" "p" "s")
      (.ct ⟨"k", [.fin 1, .fin 2], .fin 1, .fin 0⟩) (.fin 0)
      = .ok ct ∧ ct.wf = true) ∧
    (∃ ct, SimulatedFHEEngine.linear_model (SimulatedFHEEngine.generate_keys "k" "p" "s")
      (.ct ⟨"k", [.fin 1, .fin 2], .fin 1, .fin 0⟩) [.fin 5, .fin 6]
      (.fin 7) (.fin 0) = .ok ct ∧ ct.wf = true) :=
  C8_produced_invariant "p" "s" "k" (by decide)
    ⟨"k", [.fin 1, .fin 2], .fin 1, .fin 0⟩
    ⟨"k", [.fin 3, .fin 4], .fin 2, .fin 0⟩
    (by rfl) (by rfl) rfl rfl rfl
    [.fin 1, .fin 2] (by decide) rfl 7 (.fin 3) rfl
    [.fin 1, .fin 0, .fin 2] (by decide) rfl
    [.fin 5, .fin 6] rfl rfl (.fin 7) rfl (.fin 0)

end HEM
